import Mathlib

/-!
Verification development for the hedge fund portfolio simulator
(`src/portfolio.py`, `src/performance.py`, `src/config.py`).

The Python code is shallowly embedded over exact rationals:

* Python `dict`s (insertion ordered, unique keys) become association
  lists `List (Ticker × ℚ)`; `d[k]` raising `KeyError` becomes a
  `getItem` returning `Except`.
* floats become `ℚ`; Python `round` (banker's rounding, half to even)
  becomes `pyRound`.
* functions that can raise become `Except PyError _`; within a
  function each fallible step is an explicit `match`, mirroring the
  order in which the Python expressions are evaluated.
-/

namespace HedgeFund

abbrev Ticker := String

/-- The Python exceptions the embedded code can raise. -/
inductive PyError where
  | keyError (t : Ticker)
  | valueError (msg : String)
  | zeroDivisionError
  | indexError
  deriving DecidableEq, Repr

/-- A Python `dict` mapping tickers to numbers: an insertion-ordered
association list with (by intent) unique keys. -/
abbrev Dict := List (Ticker × ℚ)

/-- `d.get(t)` / `t in d` support: first binding of `t`, if any. -/
def lookup (m : Dict) (t : Ticker) : Option ℚ :=
  (m.find? (fun p => p.1 == t)).map (fun p => p.2)

/-- Python `m[t]`: raises `KeyError` when `t` is absent. -/
def getItem (m : Dict) (t : Ticker) : Except PyError ℚ :=
  match lookup m t with
  | some v => Except.ok v
  | none => Except.error (PyError.keyError t)

/-- Python `sum(...)` over a list of rationals. -/
def sumQ (l : List ℚ) : ℚ := l.foldr (· + ·) 0

/-- `config.BETA_TOLERANCE = 0.05`. -/
def BETA_TOLERANCE : ℚ := 1/20

/-- Python 3 `round` to an integer: round half to even. -/
def pyRound (q : ℚ) : ℤ :=
  let f := ⌊q⌋
  let r := q - f
  if r < 1/2 then f
  else if 1/2 < r then f + 1
  else if f % 2 = 0 then f else f + 1

/-- `portfolio.compute_portfolio_beta(positions, betas)`:
raises `ValueError` when the sum of absolute position values is zero,
otherwise returns
`sum(positions[t] * betas.get(t, 0) / total_exposure for t in positions if t in betas)`. -/
def compute_portfolio_beta (positions betas : Dict) : Except PyError ℚ :=
  let total_exposure := sumQ (positions.map (fun p => |p.2|))
  if total_exposure = 0 then
    Except.error (PyError.valueError "Total portfolio exposure cannot be zero")
  else
    Except.ok (sumQ ((positions.filter (fun p => (lookup betas p.1).isSome)).map
      (fun p => p.2 * ((lookup betas p.1).getD 0) / total_exposure)))

/-- Mean of a list, `sum / len` (0 on the empty list, as `x / 0 = 0` in `ℚ`). -/
def meanQ (l : List ℚ) : ℚ := sumQ l / l.length

/-- pandas `x.cov(y)`: sample covariance with denominator `n - 1`. -/
def covQ (x y : List ℚ) : ℚ :=
  sumQ ((x.zip y).map (fun p => (p.1 - meanQ x) * (p.2 - meanQ y))) / ((x.length : ℚ) - 1)

/-- pandas `x.var()`: sample variance with denominator `n - 1`. -/
def varQ (x : List ℚ) : ℚ :=
  sumQ (x.map (fun v => (v - meanQ x) * (v - meanQ x))) / ((x.length : ℚ) - 1)

/-- `performance.compute_beta(stock_returns, market_returns)`:
`beta = covariance / market_variance if market_variance != 0 else 0`. -/
def compute_beta (stock_returns market_returns : List ℚ) : ℚ :=
  let covariance := covQ stock_returns market_returns
  let market_variance := varQ market_returns
  if market_variance ≠ 0 then covariance / market_variance else 0

/-- One entry of the rebalancer's / initializer's transaction log.
Dates are modelled as day indices `ℕ`. -/
structure TradeLog where
  date : ℕ
  ticker : Ticker
  shares_traded : ℚ
  price : ℚ
  portfolio_beta : ℚ
  transaction_cost : ℚ
  deriving DecidableEq, Repr

/-- `{ticker: shares * prices[ticker] for ticker, shares in portfolio.items()}` —
the dict comprehension valuing a book at given prices; `prices[ticker]`
raises `KeyError` on a missing price. -/
def valuePositions (portfolio prices : Dict) : Except PyError Dict :=
  match portfolio with
  | [] => Except.ok []
  | p :: rest =>
    match getItem prices p.1 with
    | Except.error e => Except.error e
    | Except.ok pr =>
      match valuePositions rest prices with
      | Except.error e => Except.error e
      | Except.ok vs => Except.ok ((p.1, p.2 * pr) :: vs)

/-- `sum(betas[t] * s * prices[t] for t, s in sleeve.items())` from
`rebalance_portfolio` (lines 213‑214): `betas[t]` raises `KeyError`
for a held ticker that has no beta. -/
def sleeveBetaNum (sleeve prices betas : Dict) : Except PyError ℚ :=
  match sleeve with
  | [] => Except.ok 0
  | p :: rest =>
    match getItem betas p.1 with
    | Except.error e => Except.error e
    | Except.ok b =>
      match getItem prices p.1 with
      | Except.error e => Except.error e
      | Except.ok pr =>
        match sleeveBetaNum rest prices betas with
        | Except.error e => Except.error e
        | Except.ok s => Except.ok (b * p.2 * pr + s)

/-- Lines 216‑223 of `rebalance_portfolio`: the 60/40 split of the
adjustment between the sleeves, keyed on which sleeve's beta
contribution has the larger magnitude:
`long_adjustment = -beta_gap * 0.6` (or `0.4`), and symmetrically for
the short sleeve. -/
def sleeve_adjustments (beta_gap long_beta short_beta : ℚ) : ℚ × ℚ :=
  if |long_beta| > |short_beta| then (-beta_gap * (3/5), -beta_gap * (2/5))
  else (-beta_gap * (2/5), -beta_gap * (3/5))

/-- The per‑sleeve adjustment loops of `rebalance_portfolio`
(lines 229‑277).  For each ticker of the sleeve:
`adjustment_factor = 1 + sleeve_adj * beta_contribution / sleeve_beta`
(a Python `ZeroDivisionError` when `sleeve_beta == 0`), the new share
count is rounded (shorts: rounded by magnitude and re‑negated), a
$0.01‑per‑share cost is charged on the traded delta and a log entry is
appended when the delta is nonzero. -/
def adjustSleeve (sleeve prices betas : Dict)
    (total_value sleeve_adj sleeve_beta current_beta : ℚ)
    (short : Bool) (current_date : ℕ) :
    Except PyError (Dict × ℚ × List TradeLog) :=
  match sleeve with
  | [] => Except.ok ([], 0, [])
  | p :: rest =>
    match getItem betas p.1 with
    | Except.error e => Except.error e
    | Except.ok b =>
      match getItem prices p.1 with
      | Except.error e => Except.error e
      | Except.ok pr =>
        let beta_contribution := b * p.2 * pr / total_value
        if sleeve_beta = 0 then Except.error PyError.zeroDivisionError
        else
          let adjustment_factor := 1 + sleeve_adj * beta_contribution / sleeve_beta
          let new_shares : ℚ :=
            if short then (-(pyRound |p.2 * adjustment_factor| : ℤ) : ℚ)
            else ((pyRound (p.2 * adjustment_factor) : ℤ) : ℚ)
          let shares_traded := |new_shares - p.2|
          let transaction_cost := shares_traded * (1/100)
          let entry : List TradeLog :=
            if 0 < shares_traded then
              [⟨current_date, p.1, shares_traded, pr, current_beta, transaction_cost⟩]
            else []
          match adjustSleeve rest prices betas total_value sleeve_adj sleeve_beta
              current_beta short current_date with
          | Except.error e => Except.error e
          | Except.ok (restPort, restCost, restLogs) =>
            Except.ok ((p.1, new_shares) :: restPort,
              transaction_cost + restCost, entry ++ restLogs)

/-- `portfolio.rebalance_portfolio(portfolio, prices, betas, target_beta, current_date)`.
Values the book, computes the current beta, returns the portfolio
unchanged with zero cost and empty log when
`|current_beta - target_beta| <= BETA_TOLERANCE`; otherwise partitions
into the strictly long and strictly short sleeves, computes each
sleeve's beta contribution, splits the adjustment 60/40 and rewrites
each sleeve, finally re‑valuing the new book (the closing
`compute_portfolio_beta` call for logging, whose `ValueError` would
propagate). -/
def rebalance_portfolio (portfolio prices betas : Dict)
    (target_beta : ℚ) (current_date : ℕ) :
    Except PyError (Dict × ℚ × List TradeLog) :=
  match valuePositions portfolio prices with
  | Except.error e => Except.error e
  | Except.ok positions =>
    let total_value := sumQ (positions.map (fun p => |p.2|))
    match compute_portfolio_beta positions betas with
    | Except.error e => Except.error e
    | Except.ok current_beta =>
      if |current_beta - target_beta| ≤ BETA_TOLERANCE then
        Except.ok (portfolio, 0, [])
      else
        let long_positions := portfolio.filter (fun p => 0 < p.2)
        let short_positions := portfolio.filter (fun p => p.2 < 0)
        match sleeveBetaNum long_positions prices betas with
        | Except.error e => Except.error e
        | Except.ok longNum =>
          match sleeveBetaNum short_positions prices betas with
          | Except.error e => Except.error e
          | Except.ok shortNum =>
            let long_beta := longNum / total_value
            let short_beta := shortNum / total_value
            let beta_gap := target_beta - current_beta
            let adj := sleeve_adjustments beta_gap long_beta short_beta
            match adjustSleeve long_positions prices betas total_value adj.1
                long_beta current_beta false current_date with
            | Except.error e => Except.error e
            | Except.ok (longPort, longCost, longLogs) =>
              match adjustSleeve short_positions prices betas total_value adj.2
                  short_beta current_beta true current_date with
              | Except.error e => Except.error e
              | Except.ok (shortPort, shortCost, shortLogs) =>
                let new_portfolio := longPort ++ shortPort
                match valuePositions new_portfolio prices with
                | Except.error e => Except.error e
                | Except.ok new_positions =>
                  match compute_portfolio_beta new_positions betas with
                  | Except.error e => Except.error e
                  | Except.ok _ =>
                    Except.ok (new_portfolio, longCost + shortCost,
                      longLogs ++ shortLogs)

/-- One row of the result table built by `performance.simulate_portfolio`. -/
structure DailyResult where
  portfolio_value_usd : ℚ
  gross_exposure_usd : ℚ
  portfolio_value_cad : ℚ
  portfolio_beta : ℚ
  daily_return : ℚ
  management_fee : ℚ
  transaction_costs : ℚ
  rebalanced : Bool
  exchange_rate : ℚ
  deriving DecidableEq, Repr

/-- `sum(abs(value) for value in {t: s * prices[t] ...}.values())`: gross
exposure of a book at given prices. -/
def grossAt (portfolio prices : Dict) : Except PyError ℚ :=
  match valuePositions portfolio prices with
  | Except.error e => Except.error e
  | Except.ok pos => Except.ok (sumQ (pos.map (fun p => |p.2|)))

/-- The body of the day loop of `performance.simulate_portfolio`
(lines 92‑159), for one date.  `prevPrices` is `none` on the first day
(`len(results) == 0`) and carries the previous day's price row
afterwards.  Returns the portfolio carried to the next day, the
`DailyResult` row appended, and the day's transaction log entries.

Two recomputations against the previous day's prices appear in the
source: the exposure‑change logging (lines 103‑108), done *before*
rebalancing and dividing by the recomputed previous exposure (a
`ZeroDivisionError` when it is zero), and the `daily_return` basis
(lines 137‑141), done *after* rebalancing, guarded by
`prev_gross_exposure > 0`. -/
def simDay (betas : Dict) (management_fee_rate target_beta : ℚ)
    (prevPrices : Option Dict) (prices : Dict) (fx : ℚ)
    (portfolio : Dict) (date : ℕ) :
    Except PyError (Dict × DailyResult × List TradeLog) :=
  match valuePositions portfolio prices with
  | Except.error e => Except.error e
  | Except.ok positions =>
    let portfolio_value_usd := sumQ (positions.map (fun p => p.2))
    let gross_exposure_usd := sumQ (positions.map (fun p => |p.2|))
    let logCheck : Except PyError Unit :=
      match prevPrices with
      | none => Except.ok ()
      | some pp =>
        match grossAt portfolio pp with
        | Except.error e => Except.error e
        | Except.ok prev_exposure =>
          if prev_exposure = 0 then Except.error PyError.zeroDivisionError
          else Except.ok ()
    match logCheck with
    | Except.error e => Except.error e
    | Except.ok _ =>
      match compute_portfolio_beta positions betas with
      | Except.error e => Except.error e
      | Except.ok current_beta =>
        let needs_rebalancing : Bool := |current_beta - target_beta| > BETA_TOLERANCE
        match (if needs_rebalancing then
            rebalance_portfolio portfolio prices betas target_beta date
          else Except.ok (portfolio, (0 : ℚ), ([] : List TradeLog))) with
        | Except.error e => Except.error e
        | Except.ok (portfolio', transaction_cost, logs) =>
          let dailyReturn : Except PyError ℚ :=
            match prevPrices with
            | none => Except.ok 0
            | some pp =>
              match grossAt portfolio' pp with
              | Except.error e => Except.error e
              | Except.ok prev_gross =>
                Except.ok (if 0 < prev_gross then
                  gross_exposure_usd / prev_gross - 1 else 0)
          match dailyReturn with
          | Except.error e => Except.error e
          | Except.ok daily_return =>
            Except.ok (portfolio',
              { portfolio_value_usd := portfolio_value_usd
                gross_exposure_usd := gross_exposure_usd
                portfolio_value_cad := portfolio_value_usd * fx
                portfolio_beta := current_beta
                daily_return := daily_return
                management_fee := gross_exposure_usd * (management_fee_rate / 252)
                transaction_costs := transaction_cost
                rebalanced := needs_rebalancing
                exchange_rate := fx }, logs)

/-- The day loop itself: folds `simDay` over the remaining
`(price row, exchange rate)` days, threading `current_portfolio`,
accumulating result rows and extending the flat transaction log. -/
def simLoop (betas : Dict) (management_fee_rate target_beta : ℚ) :
    List (Dict × ℚ) → Option Dict → Dict → ℕ →
    Except PyError (Dict × List DailyResult × List TradeLog)
  | [], _, portfolio, _ => Except.ok (portfolio, [], [])
  | (prices, fx) :: rest, prevPrices, portfolio, date =>
    match simDay betas management_fee_rate target_beta prevPrices prices fx
        portfolio date with
    | Except.error e => Except.error e
    | Except.ok (portfolio', r, logs) =>
      match simLoop betas management_fee_rate target_beta rest (some prices)
          portfolio' (date + 1) with
      | Except.error e => Except.error e
      | Except.ok (portfolioF, results, allLogs) =>
        Except.ok (portfolioF, r :: results, logs ++ allLogs)

/-- `performance.simulate_portfolio(price_data, portfolio, betas,
exchange_rates, management_fee_rate, target_beta)`.  The aligned price
table and exchange‑rate series are passed as one list of
`(price row, rate)` days.  `price_data.iloc[0]` on an empty table is an
`IndexError`; the pre‑loop valuation of the initial book (lines 78‑82)
raises `KeyError` on a missing first‑day price.  The loop starts from
`current_portfolio = portfolio.copy()` (value‑equal to `portfolio`). -/
def simulate_portfolio (days : List (Dict × ℚ)) (portfolio betas : Dict)
    (management_fee_rate target_beta : ℚ) :
    Except PyError (List DailyResult × List TradeLog) :=
  match days with
  | [] => Except.error PyError.indexError
  | (p0, _) :: _ =>
    match valuePositions portfolio p0 with
    | Except.error e => Except.error e
    | Except.ok _ =>
      match simLoop betas management_fee_rate target_beta days none portfolio 0 with
      | Except.error e => Except.error e
      | Except.ok (_, results, allLogs) => Except.ok (results, allLogs)

/-- The caller‑supplied inputs of one `simulate_portfolio` run. -/
structure SimInputs where
  days : List (Dict × ℚ)
  portfolio : Dict
  betas : Dict
  management_fee_rate : ℚ
  target_beta : ℚ
  deriving DecidableEq

/-- A call of `simulate_portfolio`, observed together with the caller's
inputs as the callee leaves them.  The translation of the source
threads all mutable state explicitly (`current_portfolio`, `results`,
`all_transaction_logs`); no operation of the translated body writes to
`days`, `portfolio`, `betas` or the exchange rates — the source only
reads them and copies `portfolio` — so the caller's bindings after the
call are the pair's first component. -/
def simulate_portfolio_call (inp : SimInputs) :
    SimInputs × Except PyError (List DailyResult × List TradeLog) :=
  (inp, simulate_portfolio inp.days inp.portfolio inp.betas
    inp.management_fee_rate inp.target_beta)

instance {ε α : Type} [DecidableEq ε] [DecidableEq α] : DecidableEq (Except ε α) := fun a b =>
  match a, b with
  | Except.ok x, Except.ok y =>
    if h : x = y then Decidable.isTrue (by rw [h])
    else Decidable.isFalse (fun hh => h (Except.ok.inj hh))
  | Except.ok _, Except.error _ => Decidable.isFalse (fun hh => Except.noConfusion hh)
  | Except.error _, Except.ok _ => Decidable.isFalse (fun hh => Except.noConfusion hh)
  | Except.error e, Except.error f =>
    if h : e = f then Decidable.isTrue (by rw [h])
    else Decidable.isFalse (fun hh => h (Except.error.inj hh))

set_option maxRecDepth 40000

theorem sumQ_cons (q : ℚ) (l : List ℚ) : sumQ (q :: l) = q + sumQ l := rfl

theorem sumQ_map_div {α : Type} (l : List α) (f : α → ℚ) (c : ℚ) :
    sumQ (l.map (fun x => f x / c)) = sumQ (l.map f) / c := by
  induction l with
  | nil => simp [sumQ]
  | cons a t ih =>
    rw [List.map_cons, List.map_cons, sumQ_cons, sumQ_cons, ih, add_div]

theorem zip_self (x : List ℚ) : x.zip x = x.map (fun v => (v, v)) := by
  induction x with
  | nil => rfl
  | cons a t ih => rw [List.map_cons, List.zip_cons_cons, ih]

theorem covQ_self (x : List ℚ) : covQ x x = varQ x := by
  simp only [covQ, varQ, zip_self, List.map_map]
  rfl

theorem sumQ_replicate_zero (n : ℕ) : sumQ (List.replicate n 0) = 0 := by
  induction n with
  | zero => rfl
  | succ m ih => rw [List.replicate_succ, sumQ_cons, ih, add_zero]

theorem varQ_replicate_zero (n : ℕ) : varQ (List.replicate n 0) = 0 := by
  have hm : meanQ (List.replicate n 0) = 0 := by
    simp [meanQ, sumQ_replicate_zero]
  simp [varQ, hm, List.map_replicate, sumQ_replicate_zero]

theorem adjustSleeve_ok_keys (sleeve : Dict) :
    ∀ {prices betas : Dict} {tv sa sb cb : ℚ} {short : Bool} {d : ℕ}
      {out : Dict} {c : ℚ} {l : List TradeLog},
    adjustSleeve sleeve prices betas tv sa sb cb short d = Except.ok (out, c, l) →
    out.map Prod.fst = sleeve.map Prod.fst := by
  induction sleeve with
  | nil =>
    intro prices betas tv sa sb cb short d out c l h
    unfold adjustSleeve at h
    rw [Except.ok.injEq, Prod.mk.injEq] at h
    rw [← h.1]
  | cons p rest ih =>
    intro prices betas tv sa sb cb short d out c l h
    unfold adjustSleeve at h
    split at h
    · exact Except.noConfusion h
    split at h
    · exact Except.noConfusion h
    simp only [] at h
    split at h
    · exact Except.noConfusion h
    split at h
    · exact Except.noConfusion h
    rename_i restPort restCost restLogs heq
    rw [Except.ok.injEq, Prod.mk.injEq] at h
    rw [← h.1, List.map_cons, List.map_cons, ih heq]

theorem sleeveBetaNum_error_of_missing (sleeve prices betas : Dict)
    (t0 : Ticker) (s0 : ℚ) :
    (t0, s0) ∈ sleeve → lookup betas t0 = none →
    ∃ e, sleeveBetaNum sleeve prices betas = Except.error e := by
  induction sleeve with
  | nil =>
    intro hmem _
    exact absurd hmem (List.not_mem_nil _)
  | cons p rest ih =>
    intro hmem hnone
    unfold sleeveBetaNum
    cases hb : getItem betas p.1 with
    | error e => exact ⟨e, rfl⟩
    | ok b =>
      have hp1 : p.1 ≠ t0 := by
        intro hcontra
        rw [getItem, hcontra, hnone] at hb
        exact Except.noConfusion hb
      have hmem' : (t0, s0) ∈ rest := by
        rcases List.mem_cons.mp hmem with hhead | htail
        · exact absurd (congrArg Prod.fst hhead.symm) hp1
        · exact htail
      obtain ⟨e, he⟩ := ih hmem' hnone
      cases hp : getItem prices p.1 with
      | error e2 => exact ⟨e2, rfl⟩
      | ok pr => exact ⟨e, by rw [he]⟩

theorem simDay_ok_inv
    {betas : Dict} {rate tβ : ℚ} {prevPrices : Option Dict} {prices : Dict}
    {fx : ℚ} {portfolio : Dict} {d : ℕ} {port' : Dict} {r : DailyResult}
    {tl : List TradeLog}
    (h : simDay betas rate tβ prevPrices prices fx portfolio d
        = Except.ok (port', r, tl)) :
    ∃ positions current_beta,
      valuePositions portfolio prices = Except.ok positions ∧
      compute_portfolio_beta positions betas = Except.ok current_beta ∧
      r.portfolio_value_usd = sumQ (positions.map (fun p => p.2)) ∧
      r.gross_exposure_usd = sumQ (positions.map (fun p => |p.2|)) ∧
      r.portfolio_beta = current_beta ∧
      r.rebalanced = decide (|current_beta - tβ| > BETA_TOLERANCE) ∧
      r.management_fee = r.gross_exposure_usd * (rate / 252) ∧
      r.exchange_rate = fx ∧
      r.portfolio_value_cad = r.portfolio_value_usd * fx ∧
      ((r.rebalanced = true ∧
          rebalance_portfolio portfolio prices betas tβ d
            = Except.ok (port', r.transaction_costs, tl)) ∨
        (r.rebalanced = false ∧ port' = portfolio ∧
          r.transaction_costs = 0 ∧ tl = [])) ∧
      (prevPrices = none → r.daily_return = 0) ∧
      (∀ pp, prevPrices = some pp →
        ∃ pg, grossAt port' pp = Except.ok pg ∧
          r.daily_return = if 0 < pg then r.gross_exposure_usd / pg - 1 else 0) := by
  unfold simDay at h
  split at h
  · simp at h
  rename_i positions hpos
  dsimp only at h
  cases prevPrices with
  | none =>
    simp only [] at h
    split at h
    · simp at h
    rename_i current_beta hcb
    split at h
    · simp at h
    rename_i portfolio1 tcost logs heq
    rw [Except.ok.injEq, Prod.mk.injEq] at h
    obtain ⟨hP, hRT⟩ := h
    rw [Prod.mk.injEq] at hRT
    obtain ⟨hR, hL⟩ := hRT
    subst hP; subst hL
    refine ⟨positions, current_beta, hpos, hcb, ?_, ?_, ?_, ?_, ?_, ?_, ?_, ?_, ?_, ?_⟩
    · rw [← hR]
    · rw [← hR]
    · rw [← hR]
    · rw [← hR]
    · rw [← hR]
    · rw [← hR]
    · rw [← hR]
    · split at heq
      · rename_i hcond
        left
        refine ⟨by rw [← hR]; exact hcond, ?_⟩
        rw [← hR]
        exact heq
      · rename_i hcond
        right
        rw [Except.ok.injEq, Prod.mk.injEq] at heq
        obtain ⟨hp1, hq⟩ := heq
        rw [Prod.mk.injEq] at hq
        obtain ⟨hc1, hl1⟩ := hq
        exact ⟨by rw [← hR]; simpa using hcond, hp1.symm,
          by rw [← hR]; exact hc1.symm, hl1.symm⟩
    · intro _; rw [← hR]
    · intro pp hpp; exact Option.noConfusion hpp
  | some pp =>
    simp only [] at h
    split at h
    · simp at h
    rename_i u hlg
    split at h
    · simp at h
    rename_i current_beta hcb
    split at h
    · simp at h
    rename_i portfolio1 tcost logs heq
    cases hg : grossAt portfolio1 pp with
    | error e => rw [hg] at h; simp at h
    | ok pg =>
      rw [hg] at h
      simp only [] at h
      rw [Except.ok.injEq, Prod.mk.injEq] at h
      obtain ⟨hP, hRT⟩ := h
      rw [Prod.mk.injEq] at hRT
      obtain ⟨hR, hL⟩ := hRT
      subst hP; subst hL
      refine ⟨positions, current_beta, hpos, hcb, ?_, ?_, ?_, ?_, ?_, ?_, ?_, ?_, ?_, ?_⟩
      · rw [← hR]
      · rw [← hR]
      · rw [← hR]
      · rw [← hR]
      · rw [← hR]
      · rw [← hR]
      · rw [← hR]
      · split at heq
        · rename_i hcond
          left
          refine ⟨by rw [← hR]; exact hcond, ?_⟩
          rw [← hR]
          exact heq
        · rename_i hcond
          right
          rw [Except.ok.injEq, Prod.mk.injEq] at heq
          obtain ⟨hp1, hq⟩ := heq
          rw [Prod.mk.injEq] at hq
          obtain ⟨hc1, hl1⟩ := hq
          exact ⟨by rw [← hR]; simpa using hcond, hp1.symm,
            by rw [← hR]; exact hc1.symm, hl1.symm⟩
      · intro hcontra; exact Option.noConfusion hcontra
      · intro pp2 hpp
        rw [Option.some.injEq] at hpp
        subst hpp
        exact ⟨pg, hg, by rw [← hR]⟩

/-- C5: `compute_portfolio_beta` raises its domain error (`ValueError`)
exactly when the sum of absolute position values is zero; on every
positions map of nonzero total absolute exposure it returns
`Σ (signed value × beta) / Σ |value|`, the sum ranging only over the
tickers present in the beta map (missing‑beta tickers are excluded,
not errors). -/
theorem compute_portfolio_beta_spec (positions betas : Dict) :
    (compute_portfolio_beta positions betas
        = Except.error (PyError.valueError "Total portfolio exposure cannot be zero")
      ↔ sumQ (positions.map (fun p => |p.2|)) = 0) ∧
    (sumQ (positions.map (fun p => |p.2|)) ≠ 0 →
      compute_portfolio_beta positions betas
        = Except.ok (sumQ ((positions.filter (fun p => (lookup betas p.1).isSome)).map
            (fun p => p.2 * ((lookup betas p.1).getD 0)))
            / sumQ (positions.map (fun p => |p.2|)))) := by
  constructor
  · constructor
    · intro h
      by_contra hne
      simp only [compute_portfolio_beta, if_neg hne] at h
      exact Except.noConfusion h
    · intro h
      simp only [compute_portfolio_beta, if_pos h]
  · intro h
    simp only [compute_portfolio_beta, if_neg h, Except.ok.injEq]
    exact sumQ_map_div _ _ _

/-- C5 witness: a two‑ticker book with one missing beta has nonzero
exposure and gets the claimed weighted value. -/
theorem compute_portfolio_beta_spec_witness :
    sumQ (([("A", 3), ("B", -1)] : Dict).map (fun p => |p.2|)) ≠ 0
    ∧ compute_portfolio_beta [("A", 3), ("B", -1)] [("A", 2)]
      = Except.ok (sumQ ((([("A", 3), ("B", -1)] : Dict).filter
            (fun p => (lookup [("A", 2)] p.1).isSome)).map
            (fun p => p.2 * ((lookup [("A", 2)] p.1).getD 0)))
          / sumQ (([("A", 3), ("B", -1)] : Dict).map (fun p => |p.2|))) :=
  ⟨by with_unfolding_all decide,
    (compute_portfolio_beta_spec [("A", 3), ("B", -1)] [("A", 2)]).2
      (by with_unfolding_all decide)⟩

/-- C6: `compute_beta` computes `Cov(stock, market) / Var(market)` and
returns exactly 0 when `Var(market)` is exactly 0; hence a
constant‑zero market series yields 0 and any series of nonzero
variance compared against itself yields exactly 1 (the embedding is
over exact rationals, so the float tolerance of the claim is exact
equality here). -/
theorem compute_beta_spec :
    (∀ x y : List ℚ, varQ y ≠ 0 → compute_beta x y = covQ x y / varQ y) ∧
    (∀ x y : List ℚ, varQ y = 0 → compute_beta x y = 0) ∧
    (∀ (x : List ℚ) (n : ℕ), compute_beta x (List.replicate n 0) = 0) ∧
    (∀ x : List ℚ, varQ x ≠ 0 → compute_beta x x = 1) := by
  refine ⟨?_, ?_, ?_, ?_⟩
  · intro x y h
    simp only [compute_beta, if_pos h]
  · intro x y h
    simp only [compute_beta, h, ne_eq, not_true_eq_false, if_neg, ite_false,
      not_not]
  · intro x n
    have h := varQ_replicate_zero n
    simp only [compute_beta, h, ne_eq, not_true_eq_false, ite_false, not_not]
  · intro x h
    simp only [compute_beta, if_pos h, covQ_self, div_self h]

/-- C6 witness: the series `[0, 1]` has nonzero variance and beta 1
against itself; `[0, 1]` against the constant‑zero series gives 0. -/
theorem compute_beta_spec_witness :
    varQ [0, 1] ≠ 0 ∧ compute_beta [0, 1] [0, 1] = 1
    ∧ compute_beta [0, 1] (List.replicate 2 0) = 0 :=
  ⟨by with_unfolding_all decide,
    compute_beta_spec.2.2.2 [0, 1] (by with_unfolding_all decide),
    compute_beta_spec.2.2.1 [0, 1] 2⟩

/-- C2: when the pre‑trade beta of the valued book is within
`BETA_TOLERANCE` of the target, `rebalance_portfolio` returns the
input portfolio (value‑equal copy), a transaction cost of exactly 0,
and an empty trade log.  (The code's tolerance is the module constant
`BETA_TOLERANCE = 0.05`; `rebalance_portfolio` takes no tolerance
parameter.) -/
theorem rebalance_noop (portfolio prices betas : Dict) (target_beta : ℚ) (d : ℕ)
    (positions : Dict) (cb : ℚ)
    (hpos : valuePositions portfolio prices = Except.ok positions)
    (hcb : compute_portfolio_beta positions betas = Except.ok cb)
    (hin : |cb - target_beta| ≤ BETA_TOLERANCE) :
    rebalance_portfolio portfolio prices betas target_beta d
      = Except.ok (portfolio, 0, []) := by
  unfold rebalance_portfolio
  simp only [hpos, hcb, if_pos hin]

/-- C2 witness: a balanced long/short book with beta exactly 0 and
target 0 is returned unchanged with zero cost and no trades. -/
theorem rebalance_noop_witness :
    rebalance_portfolio [("A", 10), ("B", -10)] [("A", 100), ("B", 100)]
        [("A", 1), ("B", 1)] 0 0
      = Except.ok ([("A", 10), ("B", -10)], 0, []) :=
  rebalance_noop [("A", 10), ("B", -10)] [("A", 100), ("B", 100)]
    [("A", 1), ("B", 1)] 0 0 [("A", 1000), ("B", -1000)] 0
    (by with_unfolding_all decide) (by with_unfolding_all decide)
    (by with_unfolding_all decide)

/-- C3 counterexample: the claim says the correction distributed is
`target_beta − current_beta` with 60% to the larger‑magnitude sleeve.
At `current_beta = 2`, `target_beta = 0` (so `beta_gap = 0 − 2`),
`long_beta = 2`, `short_beta = 0` — the state reached by rebalancing
the one‑ticker book `{A: 10 shares, price 100, beta 2}` — the code's
sleeve adjustments sum to `+2 = current − target`, not `−2`, and the
long sleeve receives `6/5`, not `0.6 × (target − current) = −6/5`. -/
theorem sleeve_adjustments_claim_cex :
    (sleeve_adjustments ((0 : ℚ) - 2) 2 0).1 + (sleeve_adjustments ((0 : ℚ) - 2) 2 0).2
        ≠ (0 : ℚ) - 2
    ∧ (sleeve_adjustments ((0 : ℚ) - 2) 2 0).1 ≠ (3/5) * ((0 : ℚ) - 2) := by
  with_unfolding_all decide

/-- C3 amended: the adjustment the rebalancer distributes is the
NEGATION of `(target_beta − current_beta)`, i.e. it sums to
`current_beta − target_beta`; 60% of that goes to the sleeve whose
beta contribution has strictly larger magnitude and 40% to the other
(when the magnitudes tie, the short sleeve gets the 60%). -/
theorem sleeve_adjustments_negated_split (current_beta target_beta long_beta short_beta : ℚ) :
    (sleeve_adjustments (target_beta - current_beta) long_beta short_beta).1
      + (sleeve_adjustments (target_beta - current_beta) long_beta short_beta).2
      = current_beta - target_beta
    ∧ (|long_beta| > |short_beta| →
        (sleeve_adjustments (target_beta - current_beta) long_beta short_beta).1
          = (3/5) * (current_beta - target_beta)
        ∧ (sleeve_adjustments (target_beta - current_beta) long_beta short_beta).2
          = (2/5) * (current_beta - target_beta))
    ∧ (¬ |long_beta| > |short_beta| →
        (sleeve_adjustments (target_beta - current_beta) long_beta short_beta).1
          = (2/5) * (current_beta - target_beta)
        ∧ (sleeve_adjustments (target_beta - current_beta) long_beta short_beta).2
          = (3/5) * (current_beta - target_beta)) := by
  unfold sleeve_adjustments
  by_cases h : |long_beta| > |short_beta|
  · simp only [if_pos h]
    refine ⟨by ring, fun _ => ⟨by ring, by ring⟩, fun hc => absurd h hc⟩
  · simp only [if_neg h]
    refine ⟨by ring, fun hc => absurd hc h, fun _ => ⟨by ring, by ring⟩⟩

/-- C3 amended witness: at the concrete gate state of the
counterexample, the larger‑magnitude (long) sleeve receives
`0.6 × (current − target) = 6/5`. -/
theorem sleeve_adjustments_negated_split_witness :
    (sleeve_adjustments ((0 : ℚ) - 2) 2 0).1 = (3/5) * ((2 : ℚ) - 0) :=
  ((sleeve_adjustments_negated_split 2 0 2 0).2.1 (by with_unfolding_all decide)).1

/-- C9: `simulate_portfolio` leaves every caller‑supplied input — the
days (price table with exchange rates), the initial portfolio map and
the beta map — unchanged: the translated body threads its mutable
state (`current_portfolio`, `results`, `all_transaction_logs`)
explicitly and performs no write to any input, starting from
`portfolio.copy()`; observing a call together with the caller's
bindings, the bindings after the call are exactly the inputs. -/
theorem simulate_portfolio_preserves_inputs :
    ∀ inp : SimInputs, (simulate_portfolio_call inp).1 = inp :=
  fun _ => rfl

/-- C1 counterexample: a one‑ticker book `{A: 10}`, beta 2, price 100
both days, target 0 — the gate triggers and rebalancing grows the
position to 22 shares on day 0 and 48 on day 1.  The recorded day‑1
`daily_return` is `-13/24` (today's pre‑trade gross 2200 divided by
the post‑rebalance book 48 shares valued at yesterday's prices, 4800),
not `2200 / 1000 − 1` as the claim's stored‑basis formula
(`gross[1] / gross[0] − 1`) requires. -/
theorem daily_return_stored_basis_cex :
    simulate_portfolio [([("A", 100)], 1), ([("A", 100)], 1)] [("A", 10)]
        [("A", 2)] 0 0
      = Except.ok ([⟨1000, 1000, 1000, 2, 0, 0, 3/25, true, 1⟩,
          ⟨2200, 2200, 2200, 2, -13/24, 0, 13/50, true, 1⟩],
        [⟨0, "A", 12, 100, 2, 3/25⟩, ⟨1, "A", 26, 100, 2, 13/50⟩])
    ∧ (⟨2200, 2200, 2200, 2, -13/24, 0, 13/50, true, 1⟩ : DailyResult).daily_return
        ≠ (2200 : ℚ) / 1000 - 1 := by
  with_unfolding_all decide

/-- C1 amended: the first simulated day's recorded `daily_return` is 0;
for every later day, `daily_return` equals
`gross_exposure[t] / prev − 1` where `prev` is NOT the previous day's
stored gross exposure but the day's own *post‑rebalance* holdings
revalued at the previous day's prices (and the return is 0 when that
revaluation is not positive).  The two coincide only when no rebalance
has changed the share counts. -/
theorem daily_return_recomputed_basis :
    (∀ (days : List (Dict × ℚ)) (portfolio betas : Dict) (rate tβ : ℚ)
        (results : List DailyResult) (logs : List TradeLog) (r0 : DailyResult),
      simulate_portfolio days portfolio betas rate tβ = Except.ok (results, logs) →
      results.head? = some r0 → r0.daily_return = 0) ∧
    (∀ (betas : Dict) (rate tβ : ℚ) (pp prices : Dict) (fx : ℚ)
        (portfolio : Dict) (d : ℕ) (port' : Dict) (r : DailyResult)
        (tl : List TradeLog),
      simDay betas rate tβ (some pp) prices fx portfolio d
          = Except.ok (port', r, tl) →
      ∃ prev_gross, grossAt port' pp = Except.ok prev_gross ∧
        r.daily_return = if 0 < prev_gross then
          r.gross_exposure_usd / prev_gross - 1 else 0) := by
  constructor
  · intro days portfolio betas rate tβ results logs r0 h hh
    unfold simulate_portfolio at h
    split at h
    · exact Except.noConfusion h
    split at h
    · exact Except.noConfusion h
    split at h
    · exact Except.noConfusion h
    rename_i portF results1 logs1 heqLoop
    rw [Except.ok.injEq, Prod.mk.injEq] at h
    obtain ⟨hres, _⟩ := h
    unfold simLoop at heqLoop
    split at heqLoop
    · exact Except.noConfusion heqLoop
    rename_i portA rA logsA hday
    split at heqLoop
    · exact Except.noConfusion heqLoop
    rename_i portB resRest logsRest hrec
    rw [Except.ok.injEq, Prod.mk.injEq] at heqLoop
    obtain ⟨_, hq⟩ := heqLoop
    rw [Prod.mk.injEq] at hq
    obtain ⟨hres1, _⟩ := hq
    rw [← hres, ← hres1] at hh
    rw [List.head?_cons, Option.some.injEq] at hh
    obtain ⟨_, _, _, _, _, _, _, _, _, _, _, _, hnone, _⟩ := simDay_ok_inv hday
    rw [← hh]
    exact hnone rfl
  · intro betas rate tβ pp prices fx portfolio d port' r tl h
    obtain ⟨_, _, _, _, _, _, _, _, _, _, _, _, _, hsome⟩ := simDay_ok_inv h
    exact hsome pp rfl

/-- C1 amended witness: day 1 of the counterexample run — the
post‑rebalance book `{A: 48}` revalued at day‑0 prices is 4800, and
the recorded return is `2200 / 4800 − 1 = −13/24`. -/
theorem daily_return_recomputed_basis_witness :
    ∃ prev_gross, grossAt [("A", 48)] [("A", 100)] = Except.ok prev_gross
      ∧ (⟨2200, 2200, 2200, 2, -13/24, 0, 13/50, true, 1⟩ : DailyResult).daily_return
        = if 0 < prev_gross then
            (⟨2200, 2200, 2200, 2, -13/24, 0, 13/50, true, 1⟩ : DailyResult).gross_exposure_usd
              / prev_gross - 1 else 0 :=
  daily_return_recomputed_basis.2 [("A", 2)] 0 0 [("A", 100)] [("A", 100)] 1
    [("A", 22)] 1 [("A", 48)] ⟨2200, 2200, 2200, 2, -13/24, 0, 13/50, true, 1⟩
    [⟨1, "A", 26, 100, 2, 13/50⟩] (by with_unfolding_all decide)

/-- C4 counterexample: a one‑ticker no‑rebalance run (beta `1/50`,
within tolerance of target 0) with `management_fee_rate = 252`, so
day 0 records fee 1000 on basis 1000 and zero transaction cost.  The
claim's deduction would scale the 10 shares by
`1 − (1000 + 0)/1000 = 0`, so day 1's gross exposure would be
`10 × 0 × 110 = 0`; the run actually records day‑1 gross exposure
1100 = 10 × 110 — the shares were carried unscaled and no cost was
ever deducted from holdings. -/
theorem cost_deduction_cex :
    simulate_portfolio [([("A", 100)], 1), ([("A", 110)], 1)] [("A", 10)]
        [("A", 1/50)] 252 0
      = Except.ok ([⟨1000, 1000, 1000, 1/50, 0, 1000, 0, false, 1⟩,
          ⟨1100, 1100, 1100, 1/50, 1/10, 1100, 0, false, 1⟩], [])
    ∧ (10 : ℚ) * (1 - (1000 + 0) / 1000) * 110 ≠ 1100 := by
  with_unfolding_all decide

/-- C4 amended: the simulation loop never deducts the day's costs
(management fee plus transaction cost) from holdings — there is no
share‑scaling step.  On a day whose gate does not trigger, the share
state carried to the next day is exactly the incoming share state,
with zero transaction cost and no trades; on other days it changes
only through `rebalance_portfolio`. -/
theorem no_cost_deduction_carry
    (betas : Dict) (rate tβ : ℚ) (prevPrices : Option Dict) (prices : Dict)
    (fx : ℚ) (portfolio : Dict) (d : ℕ) (port' : Dict) (r : DailyResult)
    (tl : List TradeLog)
    (h : simDay betas rate tβ prevPrices prices fx portfolio d
        = Except.ok (port', r, tl))
    (hnr : r.rebalanced = false) :
    port' = portfolio ∧ r.transaction_costs = 0 ∧ tl = [] := by
  obtain ⟨_, _, _, _, _, _, _, _, _, _, _, hdisj, _, _⟩ := simDay_ok_inv h
  rcases hdisj with ⟨htrue, _⟩ | ⟨_, hp, hc, hl⟩
  · rw [hnr] at htrue; exact Bool.noConfusion htrue
  · exact ⟨hp, hc, hl⟩

/-- C4 amended witness: day 0 of the counterexample run carries the
10 shares through unchanged despite a fee of 1000. -/
theorem no_cost_deduction_carry_witness :
    ([("A", 10)] : Dict) = [("A", 10)]
    ∧ (⟨1000, 1000, 1000, 1/50, 0, 1000, 0, false, 1⟩ : DailyResult).transaction_costs = 0
    ∧ ([] : List TradeLog) = [] :=
  no_cost_deduction_carry [("A", 1/50)] 252 0 none [("A", 100)] 1 [("A", 10)] 0
    [("A", 10)] ⟨1000, 1000, 1000, 1/50, 0, 1000, 0, false, 1⟩ []
    (by with_unfolding_all decide) rfl

/-- C7 counterexample: rebalancing the book `{A: 10, Z: 0}` (gate
triggers, beta 2 vs target 0) returns a portfolio whose keys are just
`["A"]`: the zero‑share ticker `Z`, present in the input, is dropped
because the long/short partition keeps only strictly positive and
strictly negative share counts. -/
theorem rebalance_drops_zero_share_cex :
    rebalance_portfolio [("A", 10), ("Z", 0)] [("A", 100), ("Z", 50)]
        [("A", 2), ("Z", 1)] 0 0
      = Except.ok ([("A", 22)], 3/25, [⟨0, "A", 12, 100, 2, 3/25⟩])
    ∧ ("Z", (0 : ℚ)) ∈ ([("A", 10), ("Z", 0)] : Dict)
    ∧ ¬ ("Z" ∈ (([("A", 22)] : Dict).map Prod.fst)) := by
  with_unfolding_all decide

/-- C7 amended: when the gate triggers and rebalancing succeeds, the
returned portfolio's keys are exactly the input tickers with strictly
positive share count followed by those with strictly negative share
count (each sleeve in input order, unchanged tickers included) —
tickers whose share count is zero are dropped. -/
theorem rebalance_keys_nonzero
    (portfolio prices betas : Dict) (tβ : ℚ) (d : ℕ)
    (positions : Dict) (cb : ℚ) (p' : Dict) (c : ℚ) (l : List TradeLog)
    (hpos : valuePositions portfolio prices = Except.ok positions)
    (hcb : compute_portfolio_beta positions betas = Except.ok cb)
    (hgate : BETA_TOLERANCE < |cb - tβ|)
    (h : rebalance_portfolio portfolio prices betas tβ d = Except.ok (p', c, l)) :
    p'.map Prod.fst = (portfolio.filter (fun p => 0 < p.2)).map Prod.fst
      ++ (portfolio.filter (fun p => p.2 < 0)).map Prod.fst := by
  unfold rebalance_portfolio at h
  simp only [hpos, hcb, if_neg (not_le.mpr hgate)] at h
  split at h
  · exact Except.noConfusion h
  split at h
  · exact Except.noConfusion h
  split at h
  · exact Except.noConfusion h
  rename_i longPort longCost longLogs heqL
  split at h
  · exact Except.noConfusion h
  rename_i shortPort shortCost shortLogs heqS
  split at h
  · exact Except.noConfusion h
  split at h
  · exact Except.noConfusion h
  rw [Except.ok.injEq, Prod.mk.injEq] at h
  rw [← h.1, List.map_append, adjustSleeve_ok_keys _ heqL, adjustSleeve_ok_keys _ heqS]

/-- C7 amended witness: the counterexample book's surviving keys are
exactly the strictly‑long keys followed by the strictly‑short keys. -/
theorem rebalance_keys_nonzero_witness :
    ([("A", 22)] : Dict).map Prod.fst
      = (([("A", 10), ("Z", 0)] : Dict).filter (fun p => 0 < p.2)).map Prod.fst
        ++ (([("A", 10), ("Z", 0)] : Dict).filter (fun p => p.2 < 0)).map Prod.fst :=
  rebalance_keys_nonzero [("A", 10), ("Z", 0)] [("A", 100), ("Z", 50)]
    [("A", 2), ("Z", 1)] 0 0 [("A", 1000), ("Z", 0)] 2 [("A", 22)] (3/25)
    [⟨0, "A", 12, 100, 2, 3/25⟩]
    (by with_unfolding_all decide) (by with_unfolding_all decide)
    (by with_unfolding_all decide) (by with_unfolding_all decide)

/-- C8 counterexample: ticker `B` is held (5 shares) and has a price
but no beta; the aggregator tolerates it (day beta `4/3` from `A`
alone), the gate triggers, and the run ABORTS with `KeyError "B"`
raised by `betas[t]` inside `rebalance_portfolio` — a missing beta is
not always a soft failure. -/
theorem missing_beta_aborts_cex :
    simulate_portfolio [([("A", 100), ("B", 100)], 1)] [("A", 10), ("B", 5)]
        [("A", 2)] 0 0
      = Except.error (PyError.keyError "B")
    ∧ lookup [("A", 2)] "B" = none
    ∧ lookup [("A", 100), ("B", 100)] "B" = some 100 := by
  with_unfolding_all decide

/-- C8 amended: a missing beta is soft only in the aggregator —
`compute_portfolio_beta` never raises a `KeyError`, it excludes the
ticker from the weighted sum — but when the gate triggers,
`rebalance_portfolio` raises (`betas[t]` on the sleeve sums) for any
held ticker with nonzero shares and no beta, aborting the run. -/
theorem missing_beta_spec :
    (∀ (positions betas : Dict) (t : Ticker),
      compute_portfolio_beta positions betas ≠ Except.error (PyError.keyError t)) ∧
    (∀ (portfolio prices betas : Dict) (tβ : ℚ) (d : ℕ) (positions : Dict)
        (cb : ℚ) (t0 : Ticker) (s0 : ℚ),
      valuePositions portfolio prices = Except.ok positions →
      compute_portfolio_beta positions betas = Except.ok cb →
      BETA_TOLERANCE < |cb - tβ| →
      (t0, s0) ∈ portfolio → s0 ≠ 0 → lookup betas t0 = none →
      ∃ e, rebalance_portfolio portfolio prices betas tβ d = Except.error e) := by
  constructor
  · intro positions betas t h
    simp only [compute_portfolio_beta] at h
    split at h
    · simp at h
    · exact Except.noConfusion h
  · intro portfolio prices betas tβ d positions cb t0 s0 hpos hcb hgate hmem hs0 hnone
    rcases lt_or_gt_of_ne hs0 with hneg | hposv
    · have hmemS : (t0, s0) ∈ portfolio.filter (fun p => p.2 < 0) :=
        List.mem_filter.mpr ⟨hmem, by simpa using hneg⟩
      cases hl : sleeveBetaNum (portfolio.filter (fun p => 0 < p.2)) prices betas with
      | error e =>
        refine ⟨e, ?_⟩
        unfold rebalance_portfolio
        simp only [hpos, hcb, if_neg (not_le.mpr hgate), hl]
      | ok v =>
        obtain ⟨e, he⟩ := sleeveBetaNum_error_of_missing _ prices betas t0 s0 hmemS hnone
        refine ⟨e, ?_⟩
        unfold rebalance_portfolio
        simp only [hpos, hcb, if_neg (not_le.mpr hgate), hl, he]
    · have hmemL : (t0, s0) ∈ portfolio.filter (fun p => 0 < p.2) :=
        List.mem_filter.mpr ⟨hmem, by simpa using hposv⟩
      obtain ⟨e, he⟩ := sleeveBetaNum_error_of_missing _ prices betas t0 s0 hmemL hnone
      refine ⟨e, ?_⟩
      unfold rebalance_portfolio
      simp only [hpos, hcb, if_neg (not_le.mpr hgate), he]

/-- C8 amended witness: the counterexample book makes
`rebalance_portfolio` raise. -/
theorem missing_beta_spec_witness :
    ∃ e, rebalance_portfolio [("A", 10), ("B", 5)] [("A", 100), ("B", 100)]
        [("A", 2)] 0 0 = Except.error e :=
  missing_beta_spec.2 [("A", 10), ("B", 5)] [("A", 100), ("B", 100)] [("A", 2)]
    0 0 [("A", 1000), ("B", 500)] (4/3) "B" 5
    (by with_unfolding_all decide) (by with_unfolding_all decide)
    (by with_unfolding_all decide) (by with_unfolding_all decide)
    (by with_unfolding_all decide) (by with_unfolding_all decide)

/-- C10: every day's recorded `rebalanced` flag equals the pre‑trade
gate condition `|portfolio_beta − target| > BETA_TOLERANCE` evaluated
on the day's stored (pre‑trade) beta; and it can be `true` on a day
with zero `transaction_costs` and no trade‑log entries — the book
`{A: 1}` at beta `1/10` triggers the gate but rounding leaves the
single share unchanged. -/
theorem rebalanced_flag_spec :
    (∀ (betas : Dict) (rate tβ : ℚ) (prevPrices : Option Dict) (prices : Dict)
        (fx : ℚ) (portfolio : Dict) (d : ℕ) (port' : Dict) (r : DailyResult)
        (tl : List TradeLog),
      simDay betas rate tβ prevPrices prices fx portfolio d
          = Except.ok (port', r, tl) →
        r.rebalanced = decide (|r.portfolio_beta - tβ| > BETA_TOLERANCE)) ∧
    (∃ (port' : Dict) (r : DailyResult),
      simDay [("A", 1/10)] 0 0 none [("A", 50)] 1 [("A", 1)] 0
          = Except.ok (port', r, [])
        ∧ r.rebalanced = true ∧ r.transaction_costs = 0) := by
  constructor
  · intro betas rate tβ prevPrices prices fx portfolio d port' r tl h
    obtain ⟨_, cb, _, _, _, _, hbeta, hreb, _⟩ := simDay_ok_inv h
    rw [hreb, hbeta]
  · exact ⟨[("A", 1)], ⟨50, 50, 50, 1/10, 0, 0, 0, true, 1⟩,
      by with_unfolding_all decide, rfl, rfl⟩

/-- C10 witness: the flag equation instantiated on the zero‑cost
rebalanced day of the second conjunct. -/
theorem rebalanced_flag_spec_witness :
    (⟨50, 50, 50, 1/10, 0, 0, 0, true, 1⟩ : DailyResult).rebalanced
      = decide (|(⟨50, 50, 50, 1/10, 0, 0, 0, true, 1⟩ : DailyResult).portfolio_beta - 0|
          > BETA_TOLERANCE) :=
  rebalanced_flag_spec.1 [("A", 1/10)] 0 0 none [("A", 50)] 1 [("A", 1)] 0
    [("A", 1)] ⟨50, 50, 50, 1/10, 0, 0, 0, true, 1⟩ []
    (by with_unfolding_all decide)

end HedgeFund
